import Mathlib

/-!
Verification development for `src/shared/shmem.h` (ghost-userspace shared
memory regions).  The repository ships only the class declaration: the
inline member functions, member initializers, the deleted copy/move
constructors and the constant `kHeaderReservedBytes` are embedded directly
from the header; the bodies of the constructor, `Attach`, `MarkReady`,
`WaitForReady`, `size`, `CreateShmem` and `ConnectShmem` are not under
`src/` and are modelled from the specification, as marked on each
definition.
-/

namespace GhostShmemSpec

/-- From `src/shared/shmem.h` line 101:
`static constexpr int kHeaderReservedBytes = 4096;  // PAGE_SIZE`. -/
def kHeaderReservedBytes : Nat := 4096

/-- Modelled from the spec: the huge-page granularity used by the layout
policy (`round_up(..., huge_page_size)`); the concrete value (2 MiB) is the
standard huge-page size, the spec leaves it symbolic. -/
def hugePageSize : Nat := 2 * 1024 * 1024

/-- Round `x` up to the next multiple of `g`. -/
def roundUp (x g : Nat) : Nat := (x + g - 1) / g * g

/-- Modelled from the spec: `Plan(requested_size) -> total_size`, the pure
layout policy `total_size = round_up(header_reserved_bytes + requested_size,
huge_page_size)` (the body of `CreateShmem` is not under `src/`). -/
def Plan (requested : Nat) : Nat :=
  roundUp (kHeaderReservedBytes + requested) hugePageSize

/-- The region control header (`GhostShmem::InternalHeader` is only
forward-declared in the source; fields modelled from the spec wire format:
version, readiness flag, declared payload size). -/
structure InternalHeader where
  version : Int
  ready : Bool
  payloadSize : Nat
deriving DecidableEq, Repr

/-- A hosted shared-memory region: its control header, the shared payload
pages, and the total mapping size.  All attached parties see this one
object (shared, not copied). -/
structure Region where
  hdr : InternalHeader
  payload : List Nat
  mapSize : Nat
deriving DecidableEq, Repr

/-- A per-process registry of hosted regions, keyed by region name. -/
abbrev Registry := List (String × Region)

/-- The machine-wide state: each process id with the regions it hosts. -/
abbrev World := List (Nat × Registry)

/-- First region registered under `name` (first match wins, as the spec's
attach scan does). -/
def lookupName : Registry → String → Option Region
  | [], _ => none
  | (n, r) :: rest, name => if n = name then some r else lookupName rest name

/-- Registry of the process `pid`, if that process exists. -/
def lookupProc : World → Nat → Option Registry
  | [], _ => none
  | (q, reg) :: rest, pid => if q = pid then some reg else lookupProc rest pid

/-- The region hosted by `pid` under `name`, if any. -/
def lookupRegion (w : World) (pid : Nat) (name : String) : Option Region :=
  match lookupProc w pid with
  | none => none
  | some reg => lookupName reg name

/-- Apply `f` to the registry of `pid` (creating the process entry if absent). -/
def updateProcs (f : Registry → Registry) : World → Nat → World
  | [], pid => [(pid, f [])]
  | (q, reg) :: rest, pid =>
    if q = pid then (q, f reg) :: rest else (q, reg) :: updateProcs f rest pid

/-- Apply `f` to the first region registered under `name` in a registry. -/
def updateName (f : Region → Region) : Registry → String → Registry
  | [], _ => []
  | (n, r) :: rest, name =>
    if n = name then (n, f r) :: rest else (n, r) :: updateName f rest name

/-- Apply `f` to the region hosted by `pid` under `name` (no-op when absent). -/
def updateRegion (w : World) (pid : Nat) (name : String) (f : Region → Region) :
    World :=
  updateProcs (fun reg => updateName f reg name) w pid

/-- The client-side handle: mirrors the data members of `class GhostShmem`
(`src/shared/shmem.h` lines 93-98).  Pointers are `Option Nat` virtual
addresses (`none` = `nullptr`); `hdr_` carries the header the handle maps. -/
structure GhostShmem where
  shmem_ : Option Nat
  map_size_ : Nat
  memfd_ : Int
  hdr_ : Option InternalHeader
  data_ : Option Nat
deriving DecidableEq, Repr

/-- From `src/shared/shmem.h` line 45: `GhostShmem() {}` — the default
constructor runs only the member initializers (`shmem_ = nullptr`,
`memfd_ = -1`, `hdr_ = nullptr`); `map_size_` and `data_` are left
indeterminate, modelled by the junk parameters. -/
def GhostShmem.defaultInit (junkMapSize : Nat) (junkData : Option Nat) :
    GhostShmem :=
  { shmem_ := none, map_size_ := junkMapSize, memfd_ := -1,
    hdr_ := none, data_ := junkData }

/-- From `src/shared/shmem.h` line 60:
`inline char* bytes() { return static_cast<char*>(data_); }`. -/
def GhostShmem.bytes (g : GhostShmem) : Option Nat := g.data_

/-- From `src/shared/shmem.h` line 66:
`size_t absolute_size() const { return map_size_; }`. -/
def GhostShmem.absolute_size (g : GhostShmem) : Nat := g.map_size_

/-- From `src/shared/shmem.h` line 67:
`inline const void* absolute_start() const { return shmem_; }`. -/
def GhostShmem.absolute_start (g : GhostShmem) : Option Nat := g.shmem_

/-- From `src/shared/shmem.h` line 74:
`static size_t OverHeadbytes() { return kHeaderReservedBytes; }`. -/
def GhostShmem.OverHeadbytes : Nat := kHeaderReservedBytes

/-- Modelled from the spec: `size()` is declared but not defined under
`src/`; per spec §4.2/§4.3 it reports the header-declared payload size
(0 on an unpopulated handle). -/
def GhostShmem.size (g : GhostShmem) : Nat :=
  match g.hdr_ with
  | some h => h.payloadSize
  | none => 0

/-- Creation failure taxonomy (spec §7). -/
inductive CreateError where
  | NameCollisionError
  | AllocationError
  | MappingError
deriving DecidableEq, Repr

/-- Attach failure taxonomy (spec §7). -/
inductive AttachError where
  | PermissionError
  | NotFoundError
  | VersionMismatchError
  | ReadinessTimeoutError
deriving DecidableEq, Repr

/-- OS outcomes the host constructor consumes: whether the anonymous
memory-object allocation and the mapping succeed, and the base address and
descriptor the OS hands back on success. -/
structure OsOracle where
  allocOk : Bool
  mapOk : Bool
  baseAddr : Nat
  fd : Int
deriving DecidableEq, Repr

/-- Registry of `pid`, defaulting to empty for the host's own fresh process. -/
def hostRegistry (w : World) (pid : Nat) : Registry :=
  (lookupProc w pid).getD []

/-- Modelled from the spec (§4.2, the body of
`GhostShmem::GhostShmem(int64_t, const char*, size_t)` / `CreateShmem` is
not under `src/`): check-and-insert into the host's name registry, allocate
and map a huge-page-hinted object sized by `Plan`, initialize the header
with `version`, the payload size and readiness = false, and return the
populated handle.  On any failure the world is returned unchanged
(all-or-nothing construction). -/
def Create (w : World) (pid : Nat) (os : OsOracle) (version : Int)
    (name : String) (size : Nat) : World × Except CreateError GhostShmem :=
  if (lookupName (hostRegistry w pid) name).isSome then
    (w, .error .NameCollisionError)
  else if os.allocOk = false then
    (w, .error .AllocationError)
  else if os.mapOk = false then
    (w, .error .MappingError)
  else
    let hdr : InternalHeader :=
      { version := version, ready := false, payloadSize := size }
    let region : Region :=
      { hdr := hdr, payload := List.replicate size 0, mapSize := Plan size }
    (updateProcs (fun reg => (name, region) :: reg) w pid,
     .ok { shmem_ := some os.baseAddr, map_size_ := Plan size,
           memfd_ := os.fd, hdr_ := some hdr,
           data_ := some (os.baseAddr + kHeaderReservedBytes) })

/-- The host stores `bs` into the region's shared payload pages through its
own mapping (plain writes preceding `MarkReady`). -/
def hostWritePayload (w : World) (pid : Nat) (name : String) (bs : List Nat) :
    World :=
  updateRegion w pid name (fun r => { r with payload := bs })

/-- Modelled from the spec (§4.2/§4.4, the body of `GhostShmem::MarkReady`
is not under `src/`): store readiness = true with release ordering; in this
happens-before model the store publishes every preceding header/payload
write together with the flag. -/
def MarkReady (w : World) (pid : Nat) (name : String) : World :=
  updateRegion w pid name (fun r => { r with hdr := { r.hdr with ready := true } })

/-- Modelled from the spec: the bound on the client's spin-then-poll wait
(the spec requires only that it is bounded). -/
def kWaitFuel : Nat := 1000

/-- One spin-then-poll loop: `obs i` is the readiness value the client's
`i`-th acquire read observes; returns whether readiness was seen together
with the number of polls issued. -/
def waitForReadyAux (obs : Nat → Bool) : Nat → Nat → Bool × Nat
  | 0, polls => (false, polls)
  | Nat.succ fuel, polls =>
    if obs polls then (true, polls + 1) else waitForReadyAux obs fuel (polls + 1)

/-- Modelled from the spec (§4.4/§5, the body of `GhostShmem::WaitForReady`
is not under `src/`): block with a bounded spin-then-poll until readiness is
observed or the poll budget is exhausted. -/
def WaitForReady (obs : Nat → Bool) : Bool × Nat :=
  waitForReadyAux obs kWaitFuel 0

/-- OS outcomes the client attacher consumes: whether descriptor
introspection of the target pid is permitted, and the local base address
and descriptor obtained when mapping the discovered object. -/
structure ClientOs where
  canIntrospect : Bool
  baseAddr : Nat
  fd : Int
deriving DecidableEq, Repr

/-- Modelled from the spec (§4.3, the bodies of `GhostShmem::Attach` /
`ConnectShmem` / `OpenGhostShmemFd` are not under `src/`): introspect the
descriptors of `pid`, scan for the first region named `name`, map it,
compare the header version, run the readiness barrier, and on success
populate the handle's fields; every failure unwinds the local mapping and
returns the handle exactly as it was before the call. -/
def Attach (w : World) (g : GhostShmem) (os : ClientOs) (client_version : Int)
    (name : String) (pid : Nat) : Bool × GhostShmem × Option AttachError :=
  if os.canIntrospect = false then (false, g, some .PermissionError)
  else
    match lookupProc w pid with
    | none => (false, g, some .NotFoundError)
    | some reg =>
      match lookupName reg name with
      | none => (false, g, some .NotFoundError)
      | some r =>
        if r.hdr.version = client_version then
          if (WaitForReady (fun _ => r.hdr.ready)).1 then
            (true,
             { shmem_ := some os.baseAddr, map_size_ := r.mapSize,
               memfd_ := os.fd, hdr_ := some r.hdr,
               data_ := some (os.baseAddr + kHeaderReservedBytes) }, none)
          else (false, g, some .ReadinessTimeoutError)
        else (false, g, some .VersionMismatchError)

/-- The payload bytes visible through the shared pages of the region hosted
by `pid` under `name` — what an attached client's `bytes()` mapping reads. -/
def clientPayloadView (w : World) (pid : Nat) (name : String) :
    Option (List Nat) :=
  (lookupRegion w pid name).map Region.payload

/-- The header fields used by Create's success branch. -/
def mkHeader (version : Int) (size : Nat) : InternalHeader :=
  { version := version, ready := false, payloadSize := size }

/-- The region Create's success branch publishes (zero-filled payload). -/
def mkRegion (version : Int) (size : Nat) : Region :=
  { hdr := mkHeader version size, payload := List.replicate size 0,
    mapSize := Plan size }

/-- The handle Create's success branch returns. -/
def hostHandle (os : OsOracle) (version : Int) (size : Nat) : GhostShmem :=
  { shmem_ := some os.baseAddr, map_size_ := Plan size, memfd_ := os.fd,
    hdr_ := some (mkHeader version size),
    data_ := some (os.baseAddr + kHeaderReservedBytes) }

/-- The handle a successful Attach populates from region `r`. -/
def clientHandle (os : ClientOs) (r : Region) : GhostShmem :=
  { shmem_ := some os.baseAddr, map_size_ := r.mapSize, memfd_ := os.fd,
    hdr_ := some r.hdr, data_ := some (os.baseAddr + kHeaderReservedBytes) }

/-- The host-side operations that mutate shared state: region creation,
payload writes through the host's mapping, and `MarkReady` (clients only
read shared state, so attaches do not appear). -/
inductive WOp where
  | create (pid : Nat) (os : OsOracle) (version : Int) (name : String) (size : Nat)
  | write (pid : Nat) (name : String) (bs : List Nat)
  | markReady (pid : Nat) (name : String)
deriving DecidableEq, Repr

/-- One host-side step on the machine-wide state. -/
def wstep (w : World) : WOp → World
  | .create pid os version name size => (Create w pid os version name size).1
  | .write pid name bs => hostWritePayload w pid name bs
  | .markReady pid name => MarkReady w pid name

/-- Run a sequence of host-side steps. -/
def wrun (w : World) : List WOp → World
  | [] => w
  | op :: ops => wrun (wstep w op) ops

/-- The readiness value a client's acquire read of region `(pid, name)`
observes: the stored flag, or false while no such region exists. -/
def regionReady (w : World) (pid : Nat) (name : String) : Bool :=
  ((lookupRegion w pid name).map (fun r => r.hdr.ready)).getD false

/-- The header-declared protocol version of region `(pid, name)`. -/
def regionVersion (w : World) (pid : Nat) (name : String) : Option Int :=
  (lookupRegion w pid name).map (fun r => r.hdr.version)

/-- The header-declared payload size of region `(pid, name)`. -/
def regionPayloadSize (w : World) (pid : Nat) (name : String) : Option Nat :=
  (lookupRegion w pid name).map (fun r => r.hdr.payloadSize)

/-- The handle-object constructors of `class GhostShmem`
(`src/shared/shmem.h` lines 45-52 and 76-77): default construction, hosting
construction, attaching, and the declared-but-deleted copy and move
constructors (`i` names the source handle a copy/move would duplicate). -/
inductive HandleOp where
  | defaultCtor
  | hostCtor (name : String)
  | attachCtor
  | copyCtor (i : Nat)
  | moveCtor (i : Nat)
deriving DecidableEq, Repr

/-- From `src/shared/shmem.h` lines 76-77:
`GhostShmem(const GhostShmem&) = delete;` and
`GhostShmem(GhostShmem&&) = delete;` — exactly the copy and move
constructors are deleted from the interface. -/
def deletedOp : HandleOp → Bool
  | .copyCtor _ => true
  | .moveCtor _ => true
  | _ => false

/-- The handle objects alive in one process: each slot records the name of
the hosted region that handle owns (`none` for default-constructed and
client handles, which own no region). -/
abbrev HandleTable := List (Option String)

/-- How many live handle objects in the process own the region `name`. -/
def ownerCount : HandleTable → String → Nat
  | [], _ => 0
  | o :: rest, name => (if o = some name then 1 else 0) + ownerCount rest name

/-- Effect of each constructor on the process's handle table.  Hosting
construction is a registry check-and-insert (a name already hosted fails,
creating no second owner); the deleted copy and move constructors, were
they callable, would duplicate slot `i`. -/
def hstep (s : HandleTable) : HandleOp → HandleTable
  | .defaultCtor => s ++ [none]
  | .hostCtor name => if ownerCount s name = 0 then s ++ [some name] else s
  | .attachCtor => s ++ [none]
  | .copyCtor i => s ++ [s.getD i none]
  | .moveCtor i => s.set i none ++ [s.getD i none]

/-- Run a sequence of constructor calls. -/
def hrun (s : HandleTable) : List HandleOp → HandleTable
  | [] => s
  | op :: ops => hrun (hstep s op) ops

theorem lookupProc_updateProcs_self (f : Registry → Registry) (w : World)
    (pid : Nat) :
    lookupProc (updateProcs f w pid) pid = some (f ((lookupProc w pid).getD [])) := by
  induction w with
  | nil => simp [updateProcs, lookupProc]
  | cons p rest ih =>
    obtain ⟨q, reg⟩ := p
    by_cases h : q = pid
    · subst h
      simp [updateProcs, lookupProc]
    · simp [updateProcs, lookupProc, h, ih]

theorem lookupProc_updateProcs_other (f : Registry → Registry) (w : World)
    (pid pid' : Nat) (h : pid' ≠ pid) :
    lookupProc (updateProcs f w pid) pid' = lookupProc w pid' := by
  induction w with
  | nil => simp [updateProcs, lookupProc, Ne.symm h]
  | cons p rest ih =>
    obtain ⟨q, reg⟩ := p
    by_cases hq : q = pid
    · subst hq
      simp [updateProcs, lookupProc, Ne.symm h]
    · by_cases hq' : q = pid'
      · subst hq'
        simp [updateProcs, lookupProc, hq]
      · simp [updateProcs, lookupProc, hq, hq', ih]

theorem lookupName_updateName_self (f : Region → Region) (reg : Registry)
    (name : String) :
    lookupName (updateName f reg name) name = (lookupName reg name).map f := by
  induction reg with
  | nil => simp [updateName, lookupName]
  | cons p rest ih =>
    obtain ⟨n, r⟩ := p
    by_cases h : n = name
    · subst h
      simp [updateName, lookupName]
    · simp [updateName, lookupName, h, ih]

theorem lookupName_updateName_other (f : Region → Region) (reg : Registry)
    (name name' : String) (h : name' ≠ name) :
    lookupName (updateName f reg name) name' = lookupName reg name' := by
  induction reg with
  | nil => simp [updateName, lookupName]
  | cons p rest ih =>
    obtain ⟨n, r⟩ := p
    by_cases hn : n = name
    · subst hn
      simp [updateName, lookupName, Ne.symm h]
    · by_cases hn' : n = name'
      · subst hn'
        simp [updateName, lookupName, hn]
      · simp [updateName, lookupName, hn, hn', ih]

theorem lookupRegion_updateRegion_self (w : World) (pid : Nat) (name : String)
    (f : Region → Region) :
    lookupRegion (updateRegion w pid name f) pid name =
      (lookupRegion w pid name).map f := by
  unfold lookupRegion updateRegion
  rw [lookupProc_updateProcs_self]
  cases hp : lookupProc w pid with
  | none => simp [updateName, lookupName]
  | some reg => simp [lookupName_updateName_self]

theorem lookupRegion_updateRegion_other (w : World) (pid : Nat) (name : String)
    (f : Region → Region) (pid' : Nat) (name' : String)
    (h : pid' ≠ pid ∨ name' ≠ name) :
    lookupRegion (updateRegion w pid name f) pid' name' =
      lookupRegion w pid' name' := by
  unfold lookupRegion updateRegion
  by_cases hp : pid' = pid
  · subst hp
    have hn : name' ≠ name := h.resolve_left (fun hc => hc rfl)
    rw [lookupProc_updateProcs_self]
    cases hq : lookupProc w pid' with
    | none => simp [updateName, lookupName]
    | some reg => simp [lookupName_updateName_other _ _ _ _ hn]
  · rw [lookupProc_updateProcs_other _ _ _ _ hp]

theorem hugePageSize_pos : 0 < hugePageSize := by decide

theorem le_roundUp (x g : Nat) (hg : 0 < g) : x ≤ roundUp x g := by
  unfold roundUp
  rw [Nat.mul_comm]
  have hdm := Nat.div_add_mod (x + g - 1) g
  have hlt : (x + g - 1) % g < g := Nat.mod_lt _ hg
  set q := (x + g - 1) / g with hq
  set m := (x + g - 1) % g with hm
  set t := g * q with ht
  omega

theorem dvd_roundUp (x g : Nat) : g ∣ roundUp x g :=
  ⟨(x + g - 1) / g, Nat.mul_comm _ _⟩

theorem waitForReadyAux_polls_le (obs : Nat → Bool) (fuel polls : Nat) :
    (waitForReadyAux obs fuel polls).2 ≤ polls + fuel := by
  induction fuel generalizing polls with
  | zero => simp [waitForReadyAux]
  | succ n ih =>
    by_cases h : obs polls
    · have h2 : (waitForReadyAux obs (n + 1) polls).2 = polls + 1 := by
        simp [waitForReadyAux, h]
      omega
    · have h2 : (waitForReadyAux obs (n + 1) polls).2 =
          (waitForReadyAux obs n (polls + 1)).2 := by
        simp [waitForReadyAux, h]
      have h3 := ih (polls + 1)
      omega

theorem waitForReadyAux_true_iff (obs : Nat → Bool) (fuel polls : Nat) :
    (waitForReadyAux obs fuel polls).1 = true ↔
      ∃ i, polls ≤ i ∧ i < polls + fuel ∧ obs i = true := by
  induction fuel generalizing polls with
  | zero =>
    constructor
    · intro h
      simp [waitForReadyAux] at h
    · rintro ⟨i, h1, h2, _⟩
      exact absurd h2 (by omega)
  | succ n ih =>
    by_cases h : obs polls
    · simp [waitForReadyAux, h]
      exact ⟨polls, Nat.le_refl _, by omega, h⟩
    · have hstep : (waitForReadyAux obs (n + 1) polls).1 =
          (waitForReadyAux obs n (polls + 1)).1 := by
        simp [waitForReadyAux, h]
      rw [hstep, ih]
      constructor
      · rintro ⟨i, h1, h2, h3⟩
        exact ⟨i, by omega, by omega, h3⟩
      · rintro ⟨i, h1, h2, h3⟩
        refine ⟨i, ?_, by omega, h3⟩
        rcases Nat.eq_or_lt_of_le h1 with heq | hlt
        · subst heq
          exact absurd h3 h
        · omega

theorem waitForReady_const (b : Bool) : (WaitForReady (fun _ => b)).1 = b := by
  cases b with
  | true =>
    exact (waitForReadyAux_true_iff (fun _ => true) kWaitFuel 0).mpr
      ⟨0, Nat.le_refl _, by decide, rfl⟩
  | false =>
    show (waitForReadyAux (fun _ => false) kWaitFuel 0).1 = false
    cases hval : (waitForReadyAux (fun _ => false) kWaitFuel 0).1 with
    | false => rfl
    | true =>
      obtain ⟨i, _, _, h3⟩ :=
        (waitForReadyAux_true_iff (fun _ => false) kWaitFuel 0).mp hval
      exact absurd h3 (by simp)

theorem attach_mismatch (w : World) (g : GhostShmem) (os : ClientOs)
    (version : Int) (name : String) (pid : Nat) (r : Region)
    (hperm : os.canIntrospect = true)
    (hr : lookupRegion w pid name = some r)
    (hv : r.hdr.version ≠ version) :
    Attach w g os version name pid =
      (false, g, some AttachError.VersionMismatchError) := by
  cases hp : lookupProc w pid with
  | none => simp [lookupRegion, hp] at hr
  | some reg =>
    have hn : lookupName reg name = some r := by
      simpa [lookupRegion, hp] using hr
    simp [Attach, hperm, hp, hn, hv]

theorem attach_success_eq (w : World) (g : GhostShmem) (os : ClientOs)
    (version : Int) (name : String) (pid : Nat) (r : Region) (reg : Registry)
    (hperm : os.canIntrospect = true) (hp : lookupProc w pid = some reg)
    (hn : lookupName reg name = some r) (hv : r.hdr.version = version)
    (hrd : r.hdr.ready = true) :
    Attach w g os version name pid = (true, clientHandle os r, none) := by
  simp [Attach, hperm, hp, hn, hv, hrd, waitForReady_const, clientHandle]

theorem attach_fst_false_of_not_ready (w : World) (g : GhostShmem)
    (os : ClientOs) (version : Int) (name : String) (pid : Nat)
    (h : regionReady w pid name = false) :
    (Attach w g os version name pid).1 = false := by
  cases hpc : os.canIntrospect with
  | false => simp [Attach, hpc]
  | true =>
    cases hp : lookupProc w pid with
    | none => simp [Attach, hpc, hp]
    | some reg =>
      cases hn : lookupName reg name with
      | none => simp [Attach, hpc, hp, hn]
      | some r =>
        have hready : r.hdr.ready = false := by
          simpa [regionReady, lookupRegion, hp, hn] using h
        by_cases hv : r.hdr.version = version
        · simp [Attach, hpc, hp, hn, hv, hready, waitForReady_const]
        · simp [Attach, hpc, hp, hn, hv]

theorem attach_ok_inv (w : World) (g g' : GhostShmem) (os : ClientOs)
    (version : Int) (name : String) (pid : Nat) (e : Option AttachError)
    (he : Attach w g os version name pid = (true, g', e)) :
    ∃ r, lookupRegion w pid name = some r ∧ r.hdr.version = version ∧
      r.hdr.ready = true ∧ g' = clientHandle os r ∧ e = none := by
  cases hpc : os.canIntrospect with
  | false => simp [Attach, hpc] at he
  | true =>
    cases hp : lookupProc w pid with
    | none => simp [Attach, hpc, hp] at he
    | some reg =>
      cases hn : lookupName reg name with
      | none => simp [Attach, hpc, hp, hn] at he
      | some r =>
        by_cases hv : r.hdr.version = version
        · cases hrd : r.hdr.ready with
          | false => simp [Attach, hpc, hp, hn, hv, hrd, waitForReady_const] at he
          | true =>
            have h2 := (attach_success_eq w g os version name pid r reg hpc hp
              hn hv hrd).symm.trans he
            have hg : clientHandle os r = g' := congrArg (fun p => p.2.1) h2
            have hee : (none : Option AttachError) = e :=
              congrArg (fun p => p.2.2) h2
            exact ⟨r, by simp [lookupRegion, hp, hn], hv, hrd, hg.symm, hee.symm⟩
        · simp [Attach, hpc, hp, hn, hv] at he

theorem create_success_eq (w : World) (pid : Nat) (os : OsOracle)
    (version : Int) (name : String) (size : Nat)
    (hno : lookupName (hostRegistry w pid) name = none)
    (ha : os.allocOk = true) (hm : os.mapOk = true) :
    Create w pid os version name size =
      (updateProcs (fun reg => (name, mkRegion version size) :: reg) w pid,
       Except.ok (hostHandle os version size)) := by
  simp [Create, hno, ha, hm, mkRegion, mkHeader, hostHandle]

theorem create_ok_inv (w : World) (pid : Nat) (os : OsOracle) (version : Int)
    (name : String) (size : Nat) (w' : World) (g : GhostShmem)
    (he : Create w pid os version name size = (w', Except.ok g)) :
    g = hostHandle os version size ∧
    w' = updateProcs (fun reg => (name, mkRegion version size) :: reg) w pid ∧
    lookupName (hostRegistry w pid) name = none ∧
    os.allocOk = true ∧ os.mapOk = true := by
  by_cases h1 : (lookupName (hostRegistry w pid) name).isSome
  · simp [Create, h1] at he
  · cases ha : os.allocOk with
    | false => simp [Create, h1, ha] at he
    | true =>
      cases hm : os.mapOk with
      | false => simp [Create, h1, ha, hm] at he
      | true =>
        have hno : lookupName (hostRegistry w pid) name = none := by
          cases hln : lookupName (hostRegistry w pid) name
          · rfl
          · exact absurd (by simp [hln]) h1
        have h2 := (create_success_eq w pid os version name size hno ha
          hm).symm.trans he
        have hw : updateProcs (fun reg => (name, mkRegion version size) :: reg)
            w pid = w' := congrArg Prod.fst h2
        have hg : Except.ok (hostHandle os version size) = Except.ok g :=
          congrArg Prod.snd h2
        have hg2 : g = hostHandle os version size := by
          injection hg with h3
          exact h3.symm
        exact ⟨hg2, hw.symm, hno, rfl, rfl⟩

theorem wstep_region_evolution (w : World) (op : WOp) (pid : Nat)
    (name : String) :
    lookupRegion (wstep w op) pid name = lookupRegion w pid name ∨
    (lookupRegion w pid name = none ∧
      ∃ v s, lookupRegion (wstep w op) pid name = some (mkRegion v s)) ∨
    (∃ r bs, lookupRegion w pid name = some r ∧
      lookupRegion (wstep w op) pid name = some { r with payload := bs }) ∨
    (op = WOp.markReady pid name ∧ ∃ r, lookupRegion w pid name = some r ∧
      lookupRegion (wstep w op) pid name =
        some { r with hdr := { r.hdr with ready := true } }) := by
  cases op with
  | write pid' name' bs =>
    simp only [wstep, hostWritePayload]
    by_cases hp : pid' = pid
    · subst hp
      by_cases hn : name' = name
      · subst hn
        cases hr : lookupRegion w pid' name' with
        | none =>
          left
          rw [lookupRegion_updateRegion_self, hr]
          rfl
        | some r =>
          right; right; left
          refine ⟨r, bs, rfl, ?_⟩
          rw [lookupRegion_updateRegion_self, hr]
          rfl
      · left
        exact lookupRegion_updateRegion_other w pid' name' _ pid' name
          (Or.inr (Ne.symm hn))
    · left
      exact lookupRegion_updateRegion_other w pid' name' _ pid name
        (Or.inl (Ne.symm hp))
  | markReady pid' name' =>
    simp only [wstep, MarkReady]
    by_cases hp : pid' = pid
    · subst hp
      by_cases hn : name' = name
      · subst hn
        cases hr : lookupRegion w pid' name' with
        | none =>
          left
          rw [lookupRegion_updateRegion_self, hr]
          rfl
        | some r =>
          right; right; right
          exact ⟨rfl, r, rfl, by rw [lookupRegion_updateRegion_self, hr]; rfl⟩
      · left
        exact lookupRegion_updateRegion_other w pid' name' _ pid' name
          (Or.inr (Ne.symm hn))
    · left
      exact lookupRegion_updateRegion_other w pid' name' _ pid name
        (Or.inl (Ne.symm hp))
  | create pid' os' v' n' s' =>
    simp only [wstep]
    by_cases h1 : (lookupName (hostRegistry w pid') n').isSome
    · left
      simp [Create, h1]
    · cases ha : os'.allocOk with
      | false =>
        left
        simp [Create, h1, ha]
      | true =>
        cases hm : os'.mapOk with
        | false =>
          left
          simp [Create, h1, ha, hm]
        | true =>
          have hno : lookupName (hostRegistry w pid') n' = none := by
            cases hln : lookupName (hostRegistry w pid') n'
            · rfl
            · exact absurd (by simp [hln]) h1
          rw [create_success_eq w pid' os' v' n' s' hno ha hm]
          by_cases hp : pid' = pid
          · subst hp
            by_cases hn : n' = name
            · subst hn
              right; left
              constructor
              · cases hq : lookupProc w pid' with
                | none => simp [lookupRegion, hq]
                | some reg0 =>
                  have hreg : hostRegistry w pid' = reg0 := by
                    simp [hostRegistry, hq]
                  rw [hreg] at hno
                  simp [lookupRegion, hq, hno]
              · exact ⟨v', s',
                  by simp [lookupRegion, lookupProc_updateProcs_self, lookupName]⟩
            · left
              cases hq : lookupProc w pid' with
              | none =>
                simp [lookupRegion, hq, lookupProc_updateProcs_self,
                  lookupName, hn]
              | some reg0 =>
                simp [lookupRegion, hq, lookupProc_updateProcs_self,
                  lookupName, hn]
          · left
            simp [lookupRegion,
              lookupProc_updateProcs_other _ w pid' pid (Ne.symm hp)]

theorem regionReady_monotone (w : World) (op : WOp) (pid : Nat) (name : String)
    (h : regionReady w pid name = true) :
    regionReady (wstep w op) pid name = true := by
  rcases wstep_region_evolution w op pid name with
    heq | ⟨hn, v, s, hnew⟩ | ⟨r, bs, hr, hw⟩ | ⟨hop, r, hr, hw⟩
  · unfold regionReady at h ⊢
    rw [heq]
    exact h
  · rw [regionReady, hn] at h
    simp at h
  · rw [regionReady, hr] at h
    rw [regionReady, hw]
    simpa using h
  · rw [regionReady, hw]
    simp

theorem regionReady_flip (w : World) (op : WOp) (pid : Nat) (name : String)
    (h : regionReady (wstep w op) pid name = true)
    (hfalse : regionReady w pid name = false) :
    op = WOp.markReady pid name := by
  rcases wstep_region_evolution w op pid name with
    heq | ⟨hn, v, s, hnew⟩ | ⟨r, bs, hr, hw⟩ | ⟨hop, _⟩
  · unfold regionReady at h hfalse
    rw [heq] at h
    simp [hfalse] at h
  · rw [regionReady, hnew] at h
    simp [mkRegion, mkHeader] at h
  · rw [regionReady, hw] at h
    rw [regionReady, hr] at hfalse
    simp at h hfalse
    simp [hfalse] at h
  · exact hop

theorem regionHeader_stable (w : World) (op : WOp) (pid : Nat) (name : String)
    (h : (lookupRegion w pid name).isSome = true) :
    regionVersion (wstep w op) pid name = regionVersion w pid name ∧
    regionPayloadSize (wstep w op) pid name = regionPayloadSize w pid name := by
  rcases wstep_region_evolution w op pid name with
    heq | ⟨hn, _⟩ | ⟨r, bs, hr, hw⟩ | ⟨hop, r, hr, hw⟩
  · simp [regionVersion, regionPayloadSize, heq]
  · rw [hn] at h
    simp at h
  · simp [regionVersion, regionPayloadSize, hr, hw]
  · simp [regionVersion, regionPayloadSize, hr, hw]

theorem regionReady_wrun_false (w : World) (ops : List WOp) (pid : Nat)
    (name : String) (h : regionReady w pid name = false)
    (hno : ∀ o ∈ ops, o ≠ WOp.markReady pid name) :
    regionReady (wrun w ops) pid name = false := by
  induction ops generalizing w with
  | nil => exact h
  | cons op ops ih =>
    have h1 : regionReady (wstep w op) pid name = false := by
      cases hb : regionReady (wstep w op) pid name with
      | false => rfl
      | true =>
        exact absurd (regionReady_flip w op pid name hb h)
          (hno op (List.mem_cons_self _ _))
    exact ih (wstep w op) h1 (fun o ho => hno o (List.mem_cons_of_mem _ ho))

theorem absolute_size_def (g : GhostShmem) : g.absolute_size = g.map_size_ :=
  rfl

theorem hostHandle_map_size (os : OsOracle) (version : Int) (S : Nat) :
    (hostHandle os version S).map_size_ = Plan S := rfl

theorem Plan_def (S : Nat) :
    Plan S = roundUp (kHeaderReservedBytes + S) hugePageSize := rfl

theorem hostHandle_size (os : OsOracle) (version : Int) (S : Nat) :
    (hostHandle os version S).size = S := rfl

/-- A concrete region that is published and ready, for witnesses. -/
def regReady3 : Region :=
  { hdr := { version := 3, ready := true, payloadSize := 8 },
    payload := [1, 2, 3], mapSize := hugePageSize }

/-- A concrete region whose host has not yet called `MarkReady`. -/
def regIdle3 : Region :=
  { hdr := { version := 3, ready := false, payloadSize := 8 },
    payload := [0, 0], mapSize := hugePageSize }

/-- A world in which process 1 hosts the ready region under "stats". -/
def worldReady : World := [(1, [("stats", regReady3)])]

/-- A world in which process 1 hosts the not-yet-ready region under "stats". -/
def worldIdle : World := [(1, [("stats", regIdle3)])]

/-- OS outcomes for a host whose allocation and mapping succeed. -/
def osHost : OsOracle := { allocOk := true, mapOk := true, baseAddr := 0, fd := 3 }

/-- OS outcomes for a client permitted to introspect the host. -/
def osClient : ClientOs := { canIntrospect := true, baseAddr := 65536, fd := 5 }

/-- A freshly default-constructed handle. -/
def gEmpty : GhostShmem := GhostShmem.defaultInit 0 none

/-- Claim C3: for every requested size S, a successful construction yields
`total_size = round_up(header_reserved_bytes + S, huge_page_size)`, hence
`size() ≥ S`, `absolute_size() ≥ S + header_reserved_bytes`, and
`absolute_size()` is a multiple of the huge-page granularity. -/
theorem C3_create_layout (w : World) (pid : Nat) (os : OsOracle)
    (version : Int) (name : String) (S : Nat)
    (hno : lookupName (hostRegistry w pid) name = none)
    (ha : os.allocOk = true) (hm : os.mapOk = true) :
    (Create w pid os version name S).2 = Except.ok (hostHandle os version S) ∧
    (hostHandle os version S).absolute_size =
      roundUp (kHeaderReservedBytes + S) hugePageSize ∧
    S ≤ (hostHandle os version S).size ∧
    S + kHeaderReservedBytes ≤ (hostHandle os version S).absolute_size ∧
    hugePageSize ∣ (hostHandle os version S).absolute_size := by
  have habs : (hostHandle os version S).absolute_size =
      roundUp (kHeaderReservedBytes + S) hugePageSize :=
    ((absolute_size_def (hostHandle os version S)).trans
      (hostHandle_map_size os version S)).trans (Plan_def S)
  have hsize : (hostHandle os version S).size = S := hostHandle_size os version S
  refine ⟨?_, habs, ?_, ?_, ?_⟩
  · rw [create_success_eq w pid os version name S hno ha hm]
  · rw [hsize]
  · rw [habs]
    have h1 := le_roundUp (kHeaderReservedBytes + S) hugePageSize hugePageSize_pos
    omega
  · rw [habs]
    exact dvd_roundUp _ _

/-- Witness for C3 at a concrete creation of requested size 4096. -/
theorem C3_create_layout_witness :
    (Create [] 1 osHost 3 "stats" 4096).2 = Except.ok (hostHandle osHost 3 4096) ∧
    (hostHandle osHost 3 4096).absolute_size =
      roundUp (kHeaderReservedBytes + 4096) hugePageSize ∧
    4096 ≤ (hostHandle osHost 3 4096).size ∧
    4096 + kHeaderReservedBytes ≤ (hostHandle osHost 3 4096).absolute_size ∧
    hugePageSize ∣ (hostHandle osHost 3 4096).absolute_size :=
  C3_create_layout [] 1 osHost 3 "stats" 4096 rfl rfl rfl

/-- Claim C4: in every successfully created or attached handle the payload
mapping `bytes()` sits exactly `header_reserved_bytes` past
`absolute_start()` (the header occupies that prefix at offset 0), and
`OverHeadbytes()` returns the constant 4096. -/
theorem C4_header_offset (w : World) (pid : Nat) (os : OsOracle)
    (version : Int) (name : String) (size : Nat) (w' : World) (gc : GhostShmem)
    (wa : World) (g0 ga : GhostShmem) (cos : ClientOs) (cv : Int)
    (aname : String) (apid : Nat) (e : Option AttachError) :
    (Create w pid os version name size = (w', Except.ok gc) →
      gc.absolute_start = some os.baseAddr ∧
      gc.bytes = some (os.baseAddr + kHeaderReservedBytes)) ∧
    (Attach wa g0 cos cv aname apid = (true, ga, e) →
      ga.absolute_start = some cos.baseAddr ∧
      ga.bytes = some (cos.baseAddr + kHeaderReservedBytes)) ∧
    GhostShmem.OverHeadbytes = kHeaderReservedBytes ∧
    kHeaderReservedBytes = 4096 := by
  refine ⟨?_, ?_, rfl, rfl⟩
  · intro he
    obtain ⟨hg, _⟩ := create_ok_inv w pid os version name size w' gc he
    subst hg
    exact ⟨rfl, rfl⟩
  · intro he
    obtain ⟨r, _, _, _, hg, _⟩ := attach_ok_inv wa g0 ga cos cv aname apid e he
    subst hg
    exact ⟨rfl, rfl⟩

/-- Witness for C4 at a concrete creation and a concrete attach. -/
theorem C4_header_offset_witness :
    ((hostHandle osHost 3 0).absolute_start = some osHost.baseAddr ∧
      (hostHandle osHost 3 0).bytes =
        some (osHost.baseAddr + kHeaderReservedBytes)) ∧
    ((clientHandle osClient regReady3).absolute_start = some osClient.baseAddr ∧
      (clientHandle osClient regReady3).bytes =
        some (osClient.baseAddr + kHeaderReservedBytes)) ∧
    GhostShmem.OverHeadbytes = kHeaderReservedBytes ∧
    kHeaderReservedBytes = 4096 :=
  ⟨(C4_header_offset [] 1 osHost 3 "stats" 0 (Create [] 1 osHost 3 "stats" 0).1
      (hostHandle osHost 3 0) worldReady gEmpty (clientHandle osClient regReady3)
      osClient 3 "stats" 1 none).1 rfl,
   (C4_header_offset [] 1 osHost 3 "stats" 0 (Create [] 1 osHost 3 "stats" 0).1
      (hostHandle osHost 3 0) worldReady gEmpty (clientHandle osClient regReady3)
      osClient 3 "stats" 1 none).2.1 rfl,
   rfl, rfl⟩

/-- Claim C5: an `Attach` whose requested version differs from the version
stored in the region's header fails with `VersionMismatchError`, returns
false, hands back the handle exactly as before the call (mapping unwound),
and reads no payload byte — its outcome is unchanged under any rewrite of
the region's payload. -/
theorem C5_version_mismatch (w : World) (g : GhostShmem) (os : ClientOs)
    (version : Int) (name : String) (pid : Nat) (r : Region) (bs : List Nat)
    (hperm : os.canIntrospect = true)
    (hr : lookupRegion w pid name = some r)
    (hv : r.hdr.version ≠ version) :
    Attach w g os version name pid =
      (false, g, some AttachError.VersionMismatchError) ∧
    Attach (hostWritePayload w pid name bs) g os version name pid =
      Attach w g os version name pid := by
  have h1 := attach_mismatch w g os version name pid r hperm hr hv
  have hr2 : lookupRegion (hostWritePayload w pid name bs) pid name =
      some { r with payload := bs } := by
    rw [hostWritePayload, lookupRegion_updateRegion_self, hr]
    rfl
  have h2 := attach_mismatch (hostWritePayload w pid name bs) g os version name
    pid { r with payload := bs } hperm hr2 hv
  exact ⟨h1, h2.trans h1.symm⟩

/-- Witness for C5: attaching with version 2 to a version-3 region. -/
theorem C5_version_mismatch_witness :
    Attach worldReady gEmpty osClient 2 "stats" 1 =
      (false, gEmpty, some AttachError.VersionMismatchError) ∧
    Attach (hostWritePayload worldReady 1 "stats" [9]) gEmpty osClient 2
        "stats" 1 = Attach worldReady gEmpty osClient 2 "stats" 1 :=
  C5_version_mismatch worldReady gEmpty osClient 2 "stats" 1 regReady3 [9]
    rfl rfl (by decide)

/-- Claim C6: creating under a name the host already hosts fails with
`NameCollisionError` through the registry check-and-insert, and every
creation failure is all-or-nothing — the world is unchanged, so no
partially published region is ever visible to clients. -/
theorem C6_name_collision_all_or_nothing (w : World) (pid : Nat)
    (os : OsOracle) (version : Int) (name : String) (size : Nat)
    (e : CreateError) :
    ((lookupName (hostRegistry w pid) name).isSome = true →
      Create w pid os version name size =
        (w, Except.error CreateError.NameCollisionError)) ∧
    ((Create w pid os version name size).2 = Except.error e →
      (Create w pid os version name size).1 = w) := by
  constructor
  · intro h
    simp [Create, h]
  · intro he
    by_cases h1 : (lookupName (hostRegistry w pid) name).isSome
    · simp [Create, h1]
    · cases ha : os.allocOk with
      | false => simp [Create, h1, ha]
      | true =>
        cases hm : os.mapOk with
        | false => simp [Create, h1, ha, hm]
        | true =>
          have hno : lookupName (hostRegistry w pid) name = none := by
            cases hln : lookupName (hostRegistry w pid) name
            · rfl
            · exact absurd (by simp [hln]) h1
          rw [create_success_eq w pid os version name size hno ha hm] at he
          simp at he

/-- Witness for C6: recreating the already-hosted name "stats". -/
theorem C6_name_collision_witness :
    Create worldReady 1 osHost 3 "stats" 0 =
      (worldReady, Except.error CreateError.NameCollisionError) ∧
    (Create worldReady 1 osHost 3 "stats" 0).1 = worldReady :=
  ⟨(C6_name_collision_all_or_nothing worldReady 1 osHost 3 "stats" 0
      CreateError.NameCollisionError).1 rfl,
   (C6_name_collision_all_or_nothing worldReady 1 osHost 3 "stats" 0
      CreateError.NameCollisionError).2 rfl⟩

/-- Claim C7: an `Attach` against a pid that does not exist, or against a
pid hosting no region of the given name, fails with `NotFoundError` and
leaves the handle exactly as it was before the call — no residual local
mapping. -/
theorem C7_not_found (w : World) (g : GhostShmem) (os : ClientOs)
    (version : Int) (name : String) (pid : Nat)
    (hperm : os.canIntrospect = true)
    (hnf : lookupRegion w pid name = none) :
    Attach w g os version name pid =
      (false, g, some AttachError.NotFoundError) := by
  cases hp : lookupProc w pid with
  | none => simp [Attach, hperm, hp]
  | some reg =>
    have hn : lookupName reg name = none := by
      simpa [lookupRegion, hp] using hnf
    simp [Attach, hperm, hp, hn]

/-- Witness for C7: attaching to the nonexistent pid 2. -/
theorem C7_not_found_witness :
    Attach worldReady gEmpty osClient 3 "stats" 2 =
      (false, gEmpty, some AttachError.NotFoundError) :=
  C7_not_found worldReady gEmpty osClient 3 "stats" 2 rfl rfl

/-- Claim C1: round-trip across the readiness barrier — the payload bytes
the host writes before `MarkReady` are exactly the bytes a client read
through the shared mapping immediately after a successful `Attach`: the
release store in `MarkReady` publishes every preceding header/payload
write to any client that observes readiness, with no loss or reordering. -/
theorem C1_round_trip_payload (w : World) (g : GhostShmem) (os : ClientOs)
    (pid : Nat) (name : String) (version : Int) (bs : List Nat) (r : Region)
    (hperm : os.canIntrospect = true)
    (hr : lookupRegion w pid name = some r)
    (hv : r.hdr.version = version) :
    (Attach (MarkReady (hostWritePayload w pid name bs) pid name) g os version
        name pid).1 = true ∧
    clientPayloadView (MarkReady (hostWritePayload w pid name bs) pid name)
        pid name = some bs := by
  have h1 : lookupRegion (hostWritePayload w pid name bs) pid name =
      some { r with payload := bs } := by
    rw [hostWritePayload, lookupRegion_updateRegion_self, hr]
    rfl
  have h2 : lookupRegion (MarkReady (hostWritePayload w pid name bs) pid name)
      pid name =
      some { hdr := { version := r.hdr.version, ready := true,
                      payloadSize := r.hdr.payloadSize },
             payload := bs, mapSize := r.mapSize } := by
    rw [MarkReady, lookupRegion_updateRegion_self, h1]
    rfl
  cases hp : lookupProc (MarkReady (hostWritePayload w pid name bs) pid name)
      pid with
  | none => simp [lookupRegion, hp] at h2
  | some reg =>
    have hn : lookupName reg name =
        some { hdr := { version := r.hdr.version, ready := true,
                        payloadSize := r.hdr.payloadSize },
               payload := bs, mapSize := r.mapSize } := by
      simpa [lookupRegion, hp] using h2
    have hatt := attach_success_eq
      (MarkReady (hostWritePayload w pid name bs) pid name) g os version name
      pid _ reg hperm hp hn hv rfl
    constructor
    · rw [hatt]
    · rw [clientPayloadView, h2]
      rfl

/-- Witness for C1: host writes two 0xAA bytes, marks ready, client attaches
and reads them back. -/
theorem C1_round_trip_payload_witness :
    (Attach (MarkReady (hostWritePayload worldIdle 1 "stats" [170, 170]) 1
        "stats") gEmpty osClient 3 "stats" 1).1 = true ∧
    clientPayloadView (MarkReady (hostWritePayload worldIdle 1 "stats"
        [170, 170]) 1 "stats") 1 "stats" = some [170, 170] :=
  C1_round_trip_payload worldIdle gEmpty osClient 1 "stats" 3 [170, 170]
    regIdle3 rfl rfl rfl

/-- Claim C2: the readiness flag is one-shot and monotonic — a freshly
created region starts with readiness = false and its header holds the final
version and payload size; no host step lowers the flag, and the only step
that raises it is `MarkReady` on that region; header fields never change
under host steps; and along any trace without `MarkReady` the flag stays
false, so no client attach can succeed (a client never observes readiness
before `MarkReady`, and a ready header is never partially written). -/
theorem C2_readiness_one_shot (wc : World) (w' : World) (pidc : Nat)
    (osc : OsOracle) (vc : Int) (nc : String) (sc : Nat) (g0 : GhostShmem)
    (w : World) (op : WOp) (pid : Nat) (name : String)
    (wt : World) (ops : List WOp) (pidt : Nat) (namet : String)
    (g : GhostShmem) (cos : ClientOs) (cv : Int) :
    (Create wc pidc osc vc nc sc = (w', Except.ok g0) →
      regionReady w' pidc nc = false ∧
      regionVersion w' pidc nc = some vc ∧
      regionPayloadSize w' pidc nc = some sc) ∧
    (regionReady w pid name = true → regionReady (wstep w op) pid name = true) ∧
    (regionReady (wstep w op) pid name = true →
      regionReady w pid name = true ∨ op = WOp.markReady pid name) ∧
    ((lookupRegion w pid name).isSome = true →
      regionVersion (wstep w op) pid name = regionVersion w pid name ∧
      regionPayloadSize (wstep w op) pid name = regionPayloadSize w pid name) ∧
    (regionReady wt pidt namet = false →
      (∀ o ∈ ops, o ≠ WOp.markReady pidt namet) →
      regionReady (wrun wt ops) pidt namet = false ∧
      (Attach (wrun wt ops) g cos cv namet pidt).1 = false) := by
  refine ⟨?_, regionReady_monotone w op pid name, ?_,
    regionHeader_stable w op pid name, ?_⟩
  · intro he
    obtain ⟨-, hw, -, -, -⟩ := create_ok_inv wc pidc osc vc nc sc w' g0 he
    subst hw
    have hlp := lookupProc_updateProcs_self
      (fun reg => (nc, mkRegion vc sc) :: reg) wc pidc
    have hlr : lookupRegion
        (updateProcs (fun reg => (nc, mkRegion vc sc) :: reg) wc pidc) pidc nc =
        some (mkRegion vc sc) := by
      simp [lookupRegion, hlp, lookupName]
    refine ⟨?_, ?_, ?_⟩
    · rw [regionReady, hlr]
      rfl
    · rw [regionVersion, hlr]
      rfl
    · rw [regionPayloadSize, hlr]
      rfl
  · intro h
    cases hb : regionReady w pid name with
    | true => exact Or.inl rfl
    | false => exact Or.inr (regionReady_flip w op pid name h hb)
  · intro hf hno
    have hr := regionReady_wrun_false wt ops pidt namet hf hno
    exact ⟨hr, attach_fst_false_of_not_ready (wrun wt ops) g cos cv namet
      pidt hr⟩

/-- Witness for C2 at a concrete creation, a concrete payload-write step on
a ready and on a not-yet-ready region, and a one-step trace without
`MarkReady`. -/
theorem C2_readiness_one_shot_witness :
    (regionReady (updateProcs (fun reg => ("stats", mkRegion 3 2) :: reg) [] 1)
        1 "stats" = false ∧
      regionVersion (updateProcs (fun reg => ("stats", mkRegion 3 2) :: reg)
        [] 1) 1 "stats" = some 3 ∧
      regionPayloadSize (updateProcs (fun reg => ("stats", mkRegion 3 2) :: reg)
        [] 1) 1 "stats" = some 2) ∧
    regionReady (wstep worldReady (WOp.write 1 "stats" [7])) 1 "stats" = true ∧
    (regionReady worldReady 1 "stats" = true ∨
      WOp.write 1 "stats" [7] = WOp.markReady 1 "stats") ∧
    (regionVersion (wstep worldReady (WOp.write 1 "stats" [7])) 1 "stats" =
        regionVersion worldReady 1 "stats" ∧
      regionPayloadSize (wstep worldReady (WOp.write 1 "stats" [7])) 1
        "stats" = regionPayloadSize worldReady 1 "stats") ∧
    (regionReady (wrun worldIdle [WOp.write 1 "stats" [7]]) 1 "stats" = false ∧
      (Attach (wrun worldIdle [WOp.write 1 "stats" [7]]) gEmpty osClient 3
        "stats" 1).1 = false) :=
  ⟨(C2_readiness_one_shot [] (updateProcs (fun reg => ("stats", mkRegion 3 2)
      :: reg) [] 1) 1 osHost 3 "stats" 2 (hostHandle osHost 3 2) worldReady
      (WOp.write 1 "stats" [7]) 1 "stats" worldIdle [WOp.write 1 "stats" [7]]
      1 "stats" gEmpty osClient 3).1
      (create_success_eq [] 1 osHost 3 "stats" 2 rfl rfl rfl),
   (C2_readiness_one_shot [] (updateProcs (fun reg => ("stats", mkRegion 3 2)
      :: reg) [] 1) 1 osHost 3 "stats" 2 (hostHandle osHost 3 2) worldReady
      (WOp.write 1 "stats" [7]) 1 "stats" worldIdle [WOp.write 1 "stats" [7]]
      1 "stats" gEmpty osClient 3).2.1 rfl,
   (C2_readiness_one_shot [] (updateProcs (fun reg => ("stats", mkRegion 3 2)
      :: reg) [] 1) 1 osHost 3 "stats" 2 (hostHandle osHost 3 2) worldReady
      (WOp.write 1 "stats" [7]) 1 "stats" worldIdle [WOp.write 1 "stats" [7]]
      1 "stats" gEmpty osClient 3).2.2.1 rfl,
   (C2_readiness_one_shot [] (updateProcs (fun reg => ("stats", mkRegion 3 2)
      :: reg) [] 1) 1 osHost 3 "stats" 2 (hostHandle osHost 3 2) worldReady
      (WOp.write 1 "stats" [7]) 1 "stats" worldIdle [WOp.write 1 "stats" [7]]
      1 "stats" gEmpty osClient 3).2.2.2.1 rfl,
   (C2_readiness_one_shot [] (updateProcs (fun reg => ("stats", mkRegion 3 2)
      :: reg) [] 1) 1 osHost 3 "stats" 2 (hostHandle osHost 3 2) worldReady
      (WOp.write 1 "stats" [7]) 1 "stats" worldIdle [WOp.write 1 "stats" [7]]
      1 "stats" gEmpty osClient 3).2.2.2.2 rfl (by decide)⟩

/-- Claim C8: `WaitForReady` terminates on every invocation — it issues at
most `kWaitFuel` polls, returns true exactly when some poll within the
budget observes readiness, and when the region is not ready the enclosing
`Attach` fails with `ReadinessTimeoutError`, unwinds the mapping, and
returns false. -/
theorem C8_wait_bounded (obs : Nat → Bool) (w : World) (g : GhostShmem)
    (os : ClientOs) (version : Int) (name : String) (pid : Nat) (r : Region) :
    (WaitForReady obs).2 ≤ kWaitFuel ∧
    ((WaitForReady obs).1 = true ↔ ∃ i, i < kWaitFuel ∧ obs i = true) ∧
    (os.canIntrospect = true → lookupRegion w pid name = some r →
      r.hdr.version = version → r.hdr.ready = false →
      Attach w g os version name pid =
        (false, g, some AttachError.ReadinessTimeoutError)) := by
  refine ⟨?_, ?_, ?_⟩
  · have h := waitForReadyAux_polls_le obs kWaitFuel 0
    show (waitForReadyAux obs kWaitFuel 0).2 ≤ kWaitFuel
    omega
  · show (waitForReadyAux obs kWaitFuel 0).1 = true ↔
      ∃ i, i < kWaitFuel ∧ obs i = true
    rw [waitForReadyAux_true_iff]
    constructor
    · rintro ⟨i, h1, h2, h3⟩
      exact ⟨i, by omega, h3⟩
    · rintro ⟨i, h2, h3⟩
      exact ⟨i, by omega, by omega, h3⟩
  · intro hperm hr hv hready
    cases hp : lookupProc w pid with
    | none => simp [lookupRegion, hp] at hr
    | some reg =>
      have hn : lookupName reg name = some r := by
        simpa [lookupRegion, hp] using hr
      simp [Attach, hperm, hp, hn, hv, hready, waitForReady_const]

/-- Witness for C8: the all-false observation times out within budget, and
attaching to a hosted but never-marked-ready region fails with
`ReadinessTimeoutError`. -/
theorem C8_wait_bounded_witness :
    (WaitForReady (fun _ => false)).2 ≤ kWaitFuel ∧
    Attach worldIdle gEmpty osClient 3 "stats" 1 =
      (false, gEmpty, some AttachError.ReadinessTimeoutError) :=
  ⟨(C8_wait_bounded (fun _ => false) worldIdle gEmpty osClient 3 "stats" 1
      regIdle3).1,
   (C8_wait_bounded (fun _ => false) worldIdle gEmpty osClient 3 "stats" 1
      regIdle3).2.2 rfl rfl rfl rfl⟩

theorem ownerCount_append (s t : HandleTable) (name : String) :
    ownerCount (s ++ t) name = ownerCount s name + ownerCount t name := by
  induction s with
  | nil => simp [ownerCount]
  | cons o rest ih => simp [ownerCount, ih, Nat.add_assoc]

theorem hstep_ownerCount_le (s : HandleTable) (op : HandleOp) (name : String)
    (hdel : deletedOp op = false) (hle : ownerCount s name ≤ 1) :
    ownerCount (hstep s op) name ≤ 1 := by
  cases op with
  | defaultCtor =>
    show ownerCount (s ++ [none]) name ≤ 1
    rw [ownerCount_append]
    have hz : ownerCount [none] name = 0 := by simp [ownerCount]
    omega
  | attachCtor =>
    show ownerCount (s ++ [none]) name ≤ 1
    rw [ownerCount_append]
    have hz : ownerCount [none] name = 0 := by simp [ownerCount]
    omega
  | hostCtor n =>
    show ownerCount (if ownerCount s n = 0 then s ++ [some n] else s) name ≤ 1
    by_cases hz : ownerCount s n = 0
    · rw [if_pos hz, ownerCount_append]
      by_cases hn : n = name
      · subst hn
        have hc : ownerCount [some n] n = 1 := by simp [ownerCount]
        omega
      · have hc : ownerCount [some n] name = 0 := by simp [ownerCount, hn]
        omega
    · rw [if_neg hz]
      exact hle
  | copyCtor i => simp [deletedOp] at hdel
  | moveCtor i => simp [deletedOp] at hdel

theorem hrun_ownerCount_le (s : HandleTable) (ops : List HandleOp)
    (name : String) (hdel : ∀ op ∈ ops, deletedOp op = false)
    (hle : ownerCount s name ≤ 1) :
    ownerCount (hrun s ops) name ≤ 1 := by
  induction ops generalizing s with
  | nil => exact hle
  | cons op ops ih =>
    exact ih (hstep s op)
      (fun o ho => hdel o (List.mem_cons_of_mem _ ho))
      (hstep_ownerCount_le s op name (hdel op (List.mem_cons_self _ _)) hle)

/-- Claim C9: a `GhostShmem` handle can never be duplicated — the copy and
move constructors are both deleted from the interface, so along any run of
the callable constructors every live region has at most one owning handle
object in its hosting process; no operation clones or transfers ownership
of the mapping. -/
theorem C9_no_handle_duplication (ops : List HandleOp) (name : String)
    (i : Nat) (hdel : ∀ op ∈ ops, deletedOp op = false) :
    deletedOp (HandleOp.copyCtor i) = true ∧
    deletedOp (HandleOp.moveCtor i) = true ∧
    ownerCount (hrun [] ops) name ≤ 1 :=
  ⟨rfl, rfl, hrun_ownerCount_le [] ops name hdel (by simp [ownerCount])⟩

/-- Witness for C9 on a run with a default construction, an attach, and two
host constructions under the same name. -/
theorem C9_no_handle_duplication_witness :
    deletedOp (HandleOp.copyCtor 0) = true ∧
    deletedOp (HandleOp.moveCtor 0) = true ∧
    ownerCount (hrun [] [HandleOp.defaultCtor, HandleOp.hostCtor "a",
      HandleOp.attachCtor, HandleOp.hostCtor "a"]) "a" ≤ 1 :=
  C9_no_handle_duplication [HandleOp.defaultCtor, HandleOp.hostCtor "a",
    HandleOp.attachCtor, HandleOp.hostCtor "a"] "a" 0 (by decide)

/-- Claim C10: a default-constructed `GhostShmem` owns no region — its
`shmem_` and `hdr_` pointers are null and `memfd_` is -1, so
`absolute_start()` returns null; `shmem_` becomes non-null only through a
successful hosting construction or a successful `Attach`. -/
theorem C10_default_handle (junkMap : Nat) (junkData : Option Nat)
    (w : World) (pid : Nat) (os : OsOracle) (version : Int) (name : String)
    (size : Nat) (w' : World) (gc : GhostShmem) (wa : World)
    (g0 ga : GhostShmem) (cos : ClientOs) (cv : Int) (aname : String)
    (apid : Nat) (e : Option AttachError) :
    (GhostShmem.defaultInit junkMap junkData).shmem_ = none ∧
    (GhostShmem.defaultInit junkMap junkData).hdr_ = none ∧
    (GhostShmem.defaultInit junkMap junkData).memfd_ = -1 ∧
    (GhostShmem.defaultInit junkMap junkData).absolute_start = none ∧
    (Create w pid os version name size = (w', Except.ok gc) →
      gc.shmem_ = some os.baseAddr) ∧
    (Attach wa g0 cos cv aname apid = (true, ga, e) →
      ga.shmem_ = some cos.baseAddr) := by
  refine ⟨rfl, rfl, rfl, rfl, ?_, ?_⟩
  · intro he
    obtain ⟨hg, -, -, -, -⟩ := create_ok_inv w pid os version name size w' gc he
    subst hg
    rfl
  · intro he
    obtain ⟨r, -, -, -, hg, -⟩ := attach_ok_inv wa g0 ga cos cv aname apid e he
    subst hg
    rfl

/-- Witness for C10 with concrete junk values, a concrete creation and a
concrete attach. -/
theorem C10_default_handle_witness :
    (GhostShmem.defaultInit 7 (some 9)).shmem_ = none ∧
    (GhostShmem.defaultInit 7 (some 9)).hdr_ = none ∧
    (GhostShmem.defaultInit 7 (some 9)).memfd_ = -1 ∧
    (GhostShmem.defaultInit 7 (some 9)).absolute_start = none ∧
    (hostHandle osHost 3 0).shmem_ = some osHost.baseAddr ∧
    (clientHandle osClient regReady3).shmem_ = some osClient.baseAddr := by
  have h := C10_default_handle 7 (some 9) [] 1 osHost 3 "stats" 0
    (updateProcs (fun reg => ("stats", mkRegion 3 0) :: reg) [] 1)
    (hostHandle osHost 3 0) worldReady gEmpty
    (clientHandle osClient regReady3) osClient 3 "stats" 1 none
  exact ⟨h.1, h.2.1, h.2.2.1, h.2.2.2.1,
    h.2.2.2.2.1 (create_success_eq [] 1 osHost 3 "stats" 0 rfl rfl rfl),
    h.2.2.2.2.2 (attach_success_eq worldReady gEmpty osClient 3 "stats" 1
      regReady3 [("stats", regReady3)] rfl rfl rfl rfl rfl)⟩

end GhostShmemSpec
